import Mathlib

/-!
# Verification of the DDL pre-commit checker

Shallow embedding of `src/ddl_pre_commit_checker/ddl_checker.py`.

Statements and documents are lists of characters.  Python operations that can
raise `IndexError` (positional token access) are embedded with `Option`:
`none` is an uncaught `IndexError`, i.e. the check aborts without producing a
diagnostic list.  The Docker / SQLAlchemy execution machinery of
`_execute_ddl` is abstracted by an `ExecOutcome` oracle: either the DDL batch
executed successfully, or it failed with the text of the non-operational
error (`str(e.orig)`); the retry loops and the container lifecycle produce no
diagnostics and are not modelled.
-/

set_option maxHeartbeats 1000000

/-- Characters treated as whitespace by Python's `str.split()` with no
argument (ASCII fragment of `str.isspace`; the checker's inputs contain no
exotic Unicode space characters). -/
def pyIsSpace (c : Char) : Bool :=
  c = ' ' || c = '\t' || c = '\n' || c = '\r' || c = '\x0b' || c = '\x0c'

/-- Accumulator worker for `str.split()`: runs of whitespace separate words,
empty pieces are discarded.  `acc` holds the current word reversed. -/
def pyWordsAux : List Char → List Char → List (List Char)
  | acc, [] => if acc.isEmpty then [] else [acc.reverse]
  | acc, c :: rest =>
    if pyIsSpace c then
      if acc.isEmpty then pyWordsAux [] rest
      else acc.reverse :: pyWordsAux [] rest
    else pyWordsAux (c :: acc) rest

/-- Python `query.split()`: whitespace-delimited words. -/
def pyWords (l : List Char) : List (List Char) := pyWordsAux [] l

/-- The tokens of a statement, as Lean strings (`tokens = query.split()`). -/
def pyTokens (q : List Char) : List String := (pyWords q).map (fun w => String.mk w)

/-- Python substring containment `needle in hay`. -/
def containsSub (hay needle : List Char) : Bool :=
  needle.isPrefixOf hay ||
    match hay with
    | [] => false
    | _ :: t => containsSub t needle

/-- `re.sub(r"\n{2}", "", ddl)`: delete every (non-overlapping, left-to-right)
pair of consecutive newline characters. -/
def removeDoubleNewlines : List Char → List Char
  | '\n' :: '\n' :: rest => removeDoubleNewlines rest
  | c :: rest => c :: removeDoubleNewlines rest
  | [] => []

/-- Python `s.split(";")`: pieces between semicolons, empties kept,
`"".split(";") = [""]`. -/
def splitSemi : List Char → List (List Char)
  | [] => [[]]
  | ';' :: rest => [] :: splitSemi rest
  | c :: rest =>
    match splitSemi rest with
    | [] => [[c]]
    | p :: ps => (c :: p) :: ps

/-- The statement splitter used by `_check_ddl_syntax`:
`re.sub(r"\n{2}", "", self._ddl).split(";")`.  Pieces are not trimmed and a
trailing empty piece is kept. -/
def splitStatements (ddl : List Char) : List (List Char) :=
  splitSemi (removeDoubleNewlines ddl)

/-- `_check_mix_upper_lower_case_text`.  The regex
`^(?=.*[a-z])(?=.*[A-Z]).*$` under `re.search` (no flags) can only match at
position 0; its lookaheads scan up to the first newline, and `.*$` succeeds
only when `$` is reachable within the first line, i.e. at end-of-string or
just before a newline that is the final character — so the regex matches
exactly when the first line contains both an ASCII lowercase and an ASCII
uppercase letter and every newline of the text is its last character
(`a\x62\n` matches, `a\x62\nx` does not).  `text[0]` / `text[-1]` inspect
the whole string (both exist whenever the regex matched).  Returns `false`
when the text mixes case and is not wrapped in double quotes. -/
def checkMixUpperLowerCaseText (t : List Char) : Bool :=
  let firstLine := t.takeWhile (fun c => c ≠ '\n')
  if (firstLine.any Char.isLower && firstLine.any Char.isUpper) &&
      !(t.dropLast.any (fun c => c = '\n')) then
    if !(t.head? == some '"' && t.getLast? == some '"') then false
    else true
  else true

/-- The mutable state of a `DdlChecker` instance:
`_no_primary_key_table_names` (a Python set, modelled as a duplicate-free
list in insertion order) and `messages`. -/
structure CheckState where
  noPrimaryKeyTableNames : List String
  messages : List String
  deriving DecidableEq

/-- Python `set.add`. -/
def insertName (tn : String) (s : List String) : List String :=
  if tn ∈ s then s else s ++ [tn]

def tableLengthMsg (tn : String) : String :=
  "テーブル名の最大長は63文字です (" ++ tn ++ ")"

def indexCaseMsg (n : String) : String :=
  "大文字・小文字混合のインデックス名は\"\"で囲む必要があります (" ++ n ++ ")"

def indexLengthMsg (n : String) : String :=
  "インデックス名の最大長は63文字です (" ++ n ++ ")"

def alterCaseMsg (n : String) : String :=
  "大文字・小文字混合の識別子は\"\"で囲む必要があります (" ++ n ++ ")"

def alterLengthMsg (n : String) : String :=
  "識別子の最大長は\"\"を除いて63文字です (" ++ n ++ ": " ++ toString n.length ++ "文字)"

/-- The triple-quoted f-string emitted when an `ADD CONSTRAINT ... PRIMARY
KEY` statement names a table that is not in the pending set (16-space
indentation preserved from the source literal). -/
def orderingMsg (tn : String) : String :=
  "\n                ALTER TABLE " ++ tn ++ "~はCREATE TABLE " ++ tn ++
    "~の後に記載してください\n                またCREATE TABLE " ++ tn ++
    "~の直前の改行が1行になっているかを確認してください\n                "

def missingPrimaryKeyMsg (tn : String) : String :=
  tn ++ "のプライマリキーが定義されていません"

def partitionMsg (tn col : String) : String :=
  "partition byで指定したカラムがプライマリキーに含まれないテーブルがあります (" ++
    tn ++ "." ++ col ++ ")"

/-- `_check_create_table_query`: the table name is `tokens[2]` (an uncaught
`IndexError` when absent); the name is recorded in the pending set when the
literal `PRIMARY KEY` does not occur in the statement; a length diagnostic
uses the raw token length. -/
def checkCreateTableQuery (query : List Char) (st : CheckState) : Option CheckState :=
  match (pyTokens query)[2]? with
  | none => none
  | some tableName =>
    let st1 :=
      if containsSub query ("PRIMARY KEY".data) = false then
        { st with noPrimaryKeyTableNames := insertName tableName st.noPrimaryKeyTableNames }
      else st
    let st2 :=
      if tableName.length > 63 then
        { st1 with messages := st1.messages ++ [tableLengthMsg tableName] }
      else st1
    some st2

/-- `_check_create_index_query`: `tokens[2]` is always read; for a unique
index the name is `tokens[3]`.  Case-mixing and raw-length checks. -/
def checkCreateIndexQuery (query : List Char) (isUnique : Bool) (st : CheckState) :
    Option CheckState :=
  match (pyTokens query)[2]? with
  | none => none
  | some name0 =>
    let nameOpt := if isUnique then (pyTokens query)[3]? else some name0
    match nameOpt with
    | none => none
    | some indexName =>
      let st1 :=
        if checkMixUpperLowerCaseText indexName.data = false then
          { st with messages := st.messages ++ [indexCaseMsg indexName] }
        else st
      let st2 :=
        if indexName.length > 63 then
          { st1 with messages := st1.messages ++ [indexLengthMsg indexName] }
        else st1
      some st2

/-- `_check_alter_table_add_constraint_query`: table name `tokens[2]`,
identifier `tokens[5]`; case-mixing check on the identifier, length check
after deleting double quotes; then the constraint-kind dispatch on
`tokens[6]` / `tokens[7]` (with Python's short-circuit evaluation order:
`tokens[7]` is only read when `tokens[6]` is `PRIMARY` or `FOREIGN`).
`alterIdentifierChecks` is the pair of identifier diagnostics the checker
runs before the constraint-kind dispatch. -/
def alterIdentifierChecks (identifier : String) (st : CheckState) : CheckState :=
  let st1 :=
    if checkMixUpperLowerCaseText identifier.data = false then
      { st with messages := st.messages ++ [alterCaseMsg identifier] }
    else st
  let st2 :=
    if (identifier.data.filter (fun c => c ≠ '"')).length > 63 then
      { st1 with messages := st1.messages ++ [alterLengthMsg identifier] }
    else st1
  st2

def checkAlterTableAddConstraintQuery (query : List Char) (st : CheckState) :
    Option CheckState :=
  match (pyTokens query)[2]? with
  | none => none
  | some tableName =>
    match (pyTokens query)[5]? with
    | none => none
    | some identifier =>
      let st2 := alterIdentifierChecks identifier st
      match (pyTokens query)[6]? with
      | none => none
      | some t6 =>
        if t6 = "PRIMARY" then
          match (pyTokens query)[7]? with
          | none => none
          | some t7 =>
            if t7 = "KEY" then
              if tableName ∈ st2.noPrimaryKeyTableNames then
                some { st2 with
                  noPrimaryKeyTableNames := st2.noPrimaryKeyTableNames.erase tableName }
              else
                some { st2 with messages := st2.messages ++ [orderingMsg tableName] }
            else some st2
        else if t6 = "FOREIGN" then
          match (pyTokens query)[7]? with
          | none => none
          | some _ => some st2
        else some st2

/-- Character class `[a-z0-9_]` of the ALTER TABLE recognition regex. -/
def alterNameChar (c : Char) : Bool :=
  ('a' ≤ c && c ≤ 'z') || ('0' ≤ c && c ≤ '9') || c = '_'

/-- `re.match("ALTER TABLE [a-z0-9_]+ ADD CONSTRAINT", query)`.  The
character after `[a-z0-9_]+` in the pattern is a space, which is outside the
class, so the only split the backtracking engine can accept takes the
maximal class-character run: the match succeeds iff the statement starts
with `ALTER TABLE `, the following run of class characters is nonempty, and
` ADD CONSTRAINT` follows that run. -/
def alterTableMatch (q : List Char) : Bool :=
  ("ALTER TABLE ".data).isPrefixOf q &&
    (let rest := q.drop 12
     !(rest.takeWhile alterNameChar).isEmpty &&
       (" ADD CONSTRAINT".data).isPrefixOf (rest.dropWhile alterNameChar))

/-- One iteration of the classification loop of `_check_ddl_syntax`: the
fixed priority order of leading-keyword tests, unrecognized statements
skipped. -/
def processQuery (st : CheckState) (query : List Char) : Option CheckState :=
  if ("CREATE TABLE".data).isPrefixOf query then checkCreateTableQuery query st
  else if ("CREATE INDEX".data).isPrefixOf query then checkCreateIndexQuery query false st
  else if ("CREATE UNIQUE INDEX".data).isPrefixOf query then
    checkCreateIndexQuery query true st
  else if alterTableMatch query then checkAlterTableAddConstraintQuery query st
  else some st

/-- The classification loop of `_check_ddl_syntax` over all split pieces,
from a fresh checker state. -/
def statementsFold (ddl : List Char) : Option CheckState :=
  (splitStatements ddl).foldlM processQuery ⟨[], []⟩

/-- `_check_ddl_syntax`: the classification loop followed by one
missing-primary-key diagnostic per name still pending. -/
def checkDdlSyntax (ddl : List Char) : Option CheckState :=
  match statementsFold ddl with
  | none => none
  | some st =>
    some { st with
      messages := st.messages ++ st.noPrimaryKeyTableNames.map missingPrimaryKeyMsg }

/-- Literal part of the partition-error regex before the first `.+`. -/
def partitionLit1 : List Char := "primary key constraint on table \"".data

/-- Literal part of the partition-error regex between the two `.+`. -/
def partitionLit2 : List Char := "\" lacks column \"".data

/-- Literal part of the partition-error regex after the second `.+` and
before the final (unescaped) `.`. -/
def partitionLit3 : List Char := "\" which is part of the partition key".data

/-- The final unescaped `.` of the regex: exactly one non-newline
character. -/
def partitionFinalDot (l : List Char) : Option Nat :=
  match l with
  | c :: _ => if c = '\n' then none else some 1
  | [] => none

/-- Match `lit3` followed by the final `.` at the current position. -/
def partitionTailLit3 (l : List Char) : Option Nat :=
  if partitionLit3.isPrefixOf l then
    (partitionFinalDot (l.drop partitionLit3.length)).map
      (fun n => partitionLit3.length + n)
  else none

/-- Greedy continuation of the second `.+` (at least one character already
consumed): prefer consuming one more non-newline character; on failure of
that whole branch, try `lit3` at the current position (the backtracking
order of a greedy `.+`). -/
def partitionContB : List Char → Option Nat
  | [] => none
  | c :: rest =>
    match (if c ≠ '\n' then (partitionContB rest).map (fun n => n + 1) else none) with
    | some n => some n
    | none => partitionTailLit3 (c :: rest)

/-- Match `lit2 · (.+) · lit3 · .` at the current position. -/
def partitionTailLit2 (l : List Char) : Option Nat :=
  if partitionLit2.isPrefixOf l then
    match l.drop partitionLit2.length with
    | c :: rest =>
      if c ≠ '\n' then
        (partitionContB rest).map (fun n => partitionLit2.length + 1 + n)
      else none
    | [] => none
  else none

/-- Greedy continuation of the first `.+`, symmetric to `partitionContB`. -/
def partitionContA : List Char → Option Nat
  | [] => none
  | c :: rest =>
    match (if c ≠ '\n' then (partitionContA rest).map (fun n => n + 1) else none) with
    | some n => some n
    | none => partitionTailLit2 (c :: rest)

/-- Match the whole pattern
`primary key constraint on table ".+" lacks column ".+" which is part of the partition key.`
anchored at the current position, returning the length of the (greedy)
match. -/
def partitionMatchAt (l : List Char) : Option Nat :=
  if partitionLit1.isPrefixOf l then
    match l.drop partitionLit1.length with
    | c :: rest =>
      if c ≠ '\n' then
        (partitionContA rest).map (fun n => partitionLit1.length + 1 + n)
      else none
    | [] => none
  else none

/-- `re.search` of the partition-error pattern: the leftmost position with a
match wins, and `group()` is the greedy match there. -/
def partitionErrorSearch : List Char → Option (List Char)
  | [] => none
  | c :: rest =>
    match partitionMatchAt (c :: rest) with
    | some n => some ((c :: rest).take n)
    | none => partitionErrorSearch rest

/-- `_parse_partition_error_text`: words 5 and 8 of the matched text (still
carrying their surrounding double quotes) are assembled into the
partition-key diagnostic; out-of-range access would be an uncaught
`IndexError`. -/
def parsePartitionErrorText (partitionErrorText : List Char) (msgs : List String) :
    Option (List String) :=
  match (pyTokens partitionErrorText)[5]? with
  | none => none
  | some tableName =>
    match (pyTokens partitionErrorText)[8]? with
    | none => none
    | some partitionColumnName =>
      some (msgs ++ [partitionMsg tableName partitionColumnName])

/-- Outcome of submitting the DDL batch to the ephemeral engine, abstracting
the Docker and SQLAlchemy machinery of `_execute_ddl`: the readiness-retry
loop (`OperationalError`) and the container lifecycle add no diagnostics, so
the message list is determined by whether the batch succeeded or failed with
the text of a non-operational error (`str(e.orig)`). -/
inductive ExecOutcome where
  | success
  | failure (rawErrorText : List Char)

/-- ASCII fragment of Python `str.lower` (the error texts involved are
ASCII). -/
def pyLowerChar (c : Char) : Char :=
  if 'A' ≤ c && c ≤ 'Z' then Char.ofNat (c.toNat + 32) else c

/-- `str.lower` on the raw error text. -/
def pyLower (l : List Char) : List Char := l.map pyLowerChar

/-- The diagnostic-producing part of `_execute_ddl`: on failure the raw
error text is lowercased, searched for the partition-error pattern, and
either the parsed partition diagnostic or the lowercased text itself is
appended. -/
def executeDdl (msgs : List String) (o : ExecOutcome) : Option (List String) :=
  match o with
  | .success => some msgs
  | .failure raw =>
    let originalErrorText := pyLower raw
    match partitionErrorSearch originalErrorText with
    | some matched => parsePartitionErrorText matched msgs
    | none => some (msgs ++ [String.mk originalErrorText])

/-- `check_ddl`: the static pass, then the execution phase, then the
accumulated message list. -/
def checkDdl (ddl : List Char) (o : ExecOutcome) : Option (List String) :=
  match checkDdlSyntax ddl with
  | none => none
  | some st => executeDdl st.messages o

/-- Leading/trailing-whitespace trim, used only by the spec-described
splitter below. -/
def pyStrip (l : List Char) : List Char :=
  ((l.dropWhile pyIsSpace).reverse.dropWhile pyIsSpace).reverse

/-- The splitter as §4.1 of the specification describes it, defined from the
spec's words for comparison with `splitStatements`: collapse double
line-breaks, split on the terminator, trim each piece, discard a trailing
empty statement. -/
def splitStatementsSpec (ddl : List Char) : List (List Char) :=
  let ps := (splitSemi (removeDoubleNewlines ddl)).map pyStrip
  match ps.getLast? with
  | some [] => ps.dropLast
  | _ => ps

example : pyTokens "CREATE TABLE t (id int)".data = ["CREATE", "TABLE", "t", "(id", "int)"] := by
  decide

example :
    splitStatements "CREATE TABLE t (id int); ALTER TABLE t ADD CONSTRAINT t_pk PRIMARY KEY (id);".data =
      ["CREATE TABLE t (id int)".data,
       " ALTER TABLE t ADD CONSTRAINT t_pk PRIMARY KEY (id)".data, []] := by
  decide

example :
    checkDdlSyntax "CREATE TABLE t (id int); ALTER TABLE t ADD CONSTRAINT t_pk PRIMARY KEY (id);".data =
      some ⟨["t"], [missingPrimaryKeyMsg "t"]⟩ := by
  decide

example :
    checkDdlSyntax "CREATE TABLE t (id int);\n\nALTER TABLE t ADD CONSTRAINT t_pk PRIMARY KEY (id);".data =
      some ⟨[], []⟩ := by
  decide

example : checkDdlSyntax "CREATE TABLE".data = none := by decide

example :
    partitionErrorSearch
      "error: primary key constraint on table \"t\" lacks column \"c\" which is part of the partition key.".data =
      some "primary key constraint on table \"t\" lacks column \"c\" which is part of the partition key.".data := by
  decide

example :
    executeDdl []
      (.failure "ERROR: primary key constraint on table \"t\" lacks column \"c\" which is part of the partition key.".data) =
      some [partitionMsg "\"t\"" "\"c\""] := by
  decide

example : executeDdl [] (.failure "Syntax Error".data) = some [String.mk "syntax error".data] := by
  decide

/-! ## Helper lemmas

Structural facts about the embedded checkers, used by several of the claim
theorems below. -/

theorem stringDataEq {a b : String} (h : a.data = b.data) : a = b := by
  cases a; cases b; exact congrArg String.mk h

theorem getLast?_data_append_lit (s : String) {t : String} {c : Char}
    (h : t.data.getLast? = some c) : (s ++ t).data.getLast? = some c := by
  rw [String.data_append, List.getLast?_append_of_ne_nil]
  · exact h
  · intro hnil
    rw [hnil] at h
    simp at h

/-- Every diagnostic emitted per statement ends in a close parenthesis or a
space, while a missing-primary-key diagnostic ends in `ん`; this separates
the two diagnostic families. -/
def benignMsg (m : String) : Prop :=
  m.data.getLast? = some ')' ∨ m.data.getLast? = some ' '

theorem benign_tableLengthMsg (tn : String) : benignMsg (tableLengthMsg tn) :=
  Or.inl (getLast?_data_append_lit _ (by decide))

theorem benign_indexCaseMsg (n : String) : benignMsg (indexCaseMsg n) :=
  Or.inl (getLast?_data_append_lit _ (by decide))

theorem benign_indexLengthMsg (n : String) : benignMsg (indexLengthMsg n) :=
  Or.inl (getLast?_data_append_lit _ (by decide))

theorem benign_alterCaseMsg (n : String) : benignMsg (alterCaseMsg n) :=
  Or.inl (getLast?_data_append_lit _ (by decide))

theorem benign_alterLengthMsg (n : String) : benignMsg (alterLengthMsg n) :=
  Or.inl (getLast?_data_append_lit _ (by decide))

theorem benign_orderingMsg (tn : String) : benignMsg (orderingMsg tn) :=
  Or.inr (getLast?_data_append_lit _ (by decide))

theorem missingPrimaryKeyMsg_lastChar (tn : String) :
    (missingPrimaryKeyMsg tn).data.getLast? = some 'ん' :=
  getLast?_data_append_lit _ (by decide)

theorem benign_ne_missingPrimaryKeyMsg {m : String} (hb : benignMsg m) (tn : String) :
    m ≠ missingPrimaryKeyMsg tn := by
  intro he
  rw [he] at hb
  rcases hb with h | h <;> rw [missingPrimaryKeyMsg_lastChar] at h <;> simp at h

theorem missingPrimaryKeyMsg_injective : Function.Injective missingPrimaryKeyMsg := by
  intro a b h
  have hd := congrArg String.data h
  simp only [missingPrimaryKeyMsg, String.data_append] at hd
  exact stringDataEq (List.append_cancel_right hd)

/-- Inversion of the CREATE TABLE checker: it pins down the table token, the
pending-set update and the appended messages. -/
theorem checkCreateTableQuery_eq_some {q : List Char} {st st' : CheckState}
    (h : checkCreateTableQuery q st = some st') :
    ∃ tn, (pyTokens q)[2]? = some tn ∧
      st'.noPrimaryKeyTableNames =
        (if containsSub q ("PRIMARY KEY".data) = false
          then insertName tn st.noPrimaryKeyTableNames
          else st.noPrimaryKeyTableNames) ∧
      st'.messages =
        st.messages ++ (if tn.length > 63 then [tableLengthMsg tn] else []) := by
  cases e : (pyTokens q)[2]? with
  | none => simp [checkCreateTableQuery, e] at h
  | some tn =>
    simp only [checkCreateTableQuery, e, Option.some.injEq] at h
    subst h
    refine ⟨tn, rfl, ?_, ?_⟩ <;> split_ifs <;> simp

/-- Inversion of the CREATE INDEX checker: the pending set is untouched and
the appended messages are the case-mixing and length diagnostics for the
index-name token. -/
theorem checkCreateIndexQuery_eq_some {q : List Char} {isUnique : Bool}
    {st st' : CheckState} (h : checkCreateIndexQuery q isUnique st = some st') :
    ∃ n, (if isUnique then (pyTokens q)[3]? else (pyTokens q)[2]?) = some n ∧
      st'.noPrimaryKeyTableNames = st.noPrimaryKeyTableNames ∧
      st'.messages =
        st.messages ++
          (if checkMixUpperLowerCaseText n.data = false then [indexCaseMsg n] else []) ++
          (if n.length > 63 then [indexLengthMsg n] else []) := by
  cases e2 : (pyTokens q)[2]? with
  | none => simp [checkCreateIndexQuery, e2] at h
  | some n0 =>
    cases isUnique with
    | false =>
      simp only [checkCreateIndexQuery, e2, if_neg (by simp : ¬False), Bool.false_eq_true,
        if_false, Option.some.injEq] at h
      subst h
      refine ⟨n0, by simp, ?_, ?_⟩ <;> split_ifs <;> simp
    | true =>
      cases e3 : (pyTokens q)[3]? with
      | none => simp [checkCreateIndexQuery, e2, e3] at h
      | some n =>
        simp only [checkCreateIndexQuery, e2, e3, if_true, Option.some.injEq] at h
        subst h
        refine ⟨n, by simp, ?_, ?_⟩ <;> split_ifs <;> simp

/-- The messages `alterIdentifierChecks` appends. -/
def alterIdentifierMsgs (idf : String) : List String :=
  (if checkMixUpperLowerCaseText idf.data = false then [alterCaseMsg idf] else []) ++
    (if (idf.data.filter (fun c => c ≠ '"')).length > 63 then [alterLengthMsg idf] else [])

theorem alterIdentifierChecks_eq (idf : String) (st : CheckState) :
    alterIdentifierChecks idf st =
      ⟨st.noPrimaryKeyTableNames, st.messages ++ alterIdentifierMsgs idf⟩ := by
  unfold alterIdentifierChecks alterIdentifierMsgs
  split_ifs <;> simp

/-- Inversion of the ALTER TABLE ... ADD CONSTRAINT checker: tokens 2, 5 and
6 exist, and the result is one of the three outcomes of the constraint-kind
dispatch (removal from the pending set, ordering diagnostic, or no
action). -/
theorem checkAlterTableAddConstraintQuery_eq_some {q : List Char} {st st' : CheckState}
    (h : checkAlterTableAddConstraintQuery q st = some st') :
    ∃ tn idf t6, (pyTokens q)[2]? = some tn ∧ (pyTokens q)[5]? = some idf ∧
      (pyTokens q)[6]? = some t6 ∧
      ((t6 = "PRIMARY" ∧ (pyTokens q)[7]? = some "KEY" ∧
          tn ∈ st.noPrimaryKeyTableNames ∧
          st' = ⟨st.noPrimaryKeyTableNames.erase tn,
                 st.messages ++ alterIdentifierMsgs idf⟩) ∨
       (t6 = "PRIMARY" ∧ (pyTokens q)[7]? = some "KEY" ∧
          tn ∉ st.noPrimaryKeyTableNames ∧
          st' = ⟨st.noPrimaryKeyTableNames,
                 st.messages ++ alterIdentifierMsgs idf ++ [orderingMsg tn]⟩) ∨
       (¬(t6 = "PRIMARY" ∧ (pyTokens q)[7]? = some "KEY") ∧
          st' = ⟨st.noPrimaryKeyTableNames, st.messages ++ alterIdentifierMsgs idf⟩)) := by
  cases e2 : (pyTokens q)[2]? with
  | none => simp [checkAlterTableAddConstraintQuery, e2] at h
  | some tn =>
  cases e5 : (pyTokens q)[5]? with
  | none => simp [checkAlterTableAddConstraintQuery, e2, e5] at h
  | some idf =>
  cases e6 : (pyTokens q)[6]? with
  | none => simp [checkAlterTableAddConstraintQuery, e2, e5, e6] at h
  | some t6 =>
    refine ⟨tn, idf, t6, rfl, rfl, rfl, ?_⟩
    by_cases h6 : t6 = "PRIMARY"
    · subst h6
      cases e7 : (pyTokens q)[7]? with
      | none =>
        simp [checkAlterTableAddConstraintQuery, e2, e5, e6, e7] at h
      | some t7 =>
        by_cases h7 : t7 = "KEY"
        · subst h7
          by_cases hmem : tn ∈ (alterIdentifierChecks idf st).noPrimaryKeyTableNames
          · left
            have hmem' : tn ∈ st.noPrimaryKeyTableNames := by
              rwa [alterIdentifierChecks_eq] at hmem
            refine ⟨rfl, rfl, hmem', ?_⟩
            simp only [checkAlterTableAddConstraintQuery, e2, e5, e6, e7, if_pos rfl,
              if_pos hmem, if_true, Option.some.injEq] at h
            rw [← h, alterIdentifierChecks_eq]
          · right; left
            have hmem' : tn ∉ st.noPrimaryKeyTableNames := by
              rwa [alterIdentifierChecks_eq] at hmem
            refine ⟨rfl, rfl, hmem', ?_⟩
            simp only [checkAlterTableAddConstraintQuery, e2, e5, e6, e7, if_pos rfl,
              if_neg hmem, if_true, Option.some.injEq] at h
            rw [← h, alterIdentifierChecks_eq]
        · right; right
          refine ⟨by simp [e7, h7], ?_⟩
          simp only [checkAlterTableAddConstraintQuery, e2, e5, e6, e7, if_pos rfl,
            if_neg h7, if_true, Option.some.injEq] at h
          rw [← h, alterIdentifierChecks_eq]
    · right; right
      refine ⟨by simp [h6], ?_⟩
      by_cases h6f : t6 = "FOREIGN"
      · subst h6f
        cases e7 : (pyTokens q)[7]? with
        | none =>
          simp [checkAlterTableAddConstraintQuery, e2, e5, e6, e7, h6] at h
        | some t7 =>
          simp only [checkAlterTableAddConstraintQuery, e2, e5, e6, e7, if_neg h6,
            if_pos rfl, if_true, Option.some.injEq] at h
          rw [← h, alterIdentifierChecks_eq]
      · simp only [checkAlterTableAddConstraintQuery, e2, e5, e6, if_neg h6,
          if_neg h6f, if_true, Option.some.injEq] at h
        rw [← h, alterIdentifierChecks_eq]

theorem mem_ite_singleton {α : Type} {c : Prop} [Decidable c] {m x : α}
    (h : m ∈ (if c then [x] else [])) : m = x := by
  split_ifs at h
  · simpa using h
  · simp at h

theorem benign_alterIdentifierMsgs {m idf : String}
    (h : m ∈ alterIdentifierMsgs idf) : benignMsg m := by
  unfold alterIdentifierMsgs at h
  rcases List.mem_append.1 h with h | h
  · exact (mem_ite_singleton h) ▸ benign_alterCaseMsg idf
  · exact (mem_ite_singleton h) ▸ benign_alterLengthMsg idf

theorem insertName_nodup {tn : String} {s : List String} (h : s.Nodup) :
    (insertName tn s).Nodup := by
  unfold insertName
  split_ifs with hmem
  · exact h
  · simp [List.nodup_append, h, hmem]

theorem insertName_mem_self (tn : String) (s : List String) : tn ∈ insertName tn s := by
  unfold insertName
  split_ifs with h
  · exact h
  · simp

theorem insertName_mem_of_mem {a tn : String} {s : List String} (h : a ∈ s) :
    a ∈ insertName tn s := by
  unfold insertName
  split_ifs <;> simp [h]

/-- Statements matching none of the four recognized shapes leave the state
unchanged. -/
theorem processQuery_unrecognized {st : CheckState} {q : List Char}
    (h1 : ("CREATE TABLE".data).isPrefixOf q = false)
    (h2 : ("CREATE INDEX".data).isPrefixOf q = false)
    (h3 : ("CREATE UNIQUE INDEX".data).isPrefixOf q = false)
    (h4 : alterTableMatch q = false) :
    processQuery st q = some st := by
  simp [processQuery, h1, h2, h3, h4]

/-- A processed statement only appends per-statement diagnostics, which all
end in a parenthesis or space. -/
theorem processQuery_benign {st st' : CheckState} {q : List Char}
    (h : processQuery st q = some st')
    (hb : ∀ m ∈ st.messages, benignMsg m) : ∀ m ∈ st'.messages, benignMsg m := by
  unfold processQuery at h
  split_ifs at h with hct hci hcu ham
  · obtain ⟨tn, _, _, hm⟩ := checkCreateTableQuery_eq_some h
    intro m hmem
    rw [hm] at hmem
    rcases List.mem_append.1 hmem with h' | h'
    · exact hb m h'
    · exact (mem_ite_singleton h') ▸ benign_tableLengthMsg tn
  · obtain ⟨n, _, _, hm⟩ := checkCreateIndexQuery_eq_some h
    intro m hmem
    rw [hm] at hmem
    rcases List.mem_append.1 hmem with h' | h'
    · rcases List.mem_append.1 h' with h'' | h''
      · exact hb m h''
      · exact (mem_ite_singleton h'') ▸ benign_indexCaseMsg n
    · exact (mem_ite_singleton h') ▸ benign_indexLengthMsg n
  · obtain ⟨n, _, _, hm⟩ := checkCreateIndexQuery_eq_some h
    intro m hmem
    rw [hm] at hmem
    rcases List.mem_append.1 hmem with h' | h'
    · rcases List.mem_append.1 h' with h'' | h''
      · exact hb m h''
      · exact (mem_ite_singleton h'') ▸ benign_indexCaseMsg n
    · exact (mem_ite_singleton h') ▸ benign_indexLengthMsg n
  · obtain ⟨tn, idf, t6, _, _, _, hcase⟩ := checkAlterTableAddConstraintQuery_eq_some h
    intro m hmem
    rcases hcase with ⟨_, _, _, rfl⟩ | ⟨_, _, _, rfl⟩ | ⟨_, rfl⟩
    · rcases List.mem_append.1 hmem with h' | h'
      · exact hb m h'
      · exact benign_alterIdentifierMsgs h'
    · rcases List.mem_append.1 hmem with h' | h'
      · rcases List.mem_append.1 h' with h'' | h''
        · exact hb m h''
        · exact benign_alterIdentifierMsgs h''
      · simp only [List.mem_singleton] at h'
        exact h' ▸ benign_orderingMsg tn
    · rcases List.mem_append.1 hmem with h' | h'
      · exact hb m h'
      · exact benign_alterIdentifierMsgs h'
  · cases h
    exact hb

/-- Processing preserves the no-duplicates invariant of the pending set. -/
theorem processQuery_nodup {st st' : CheckState} {q : List Char}
    (h : processQuery st q = some st')
    (hn : st.noPrimaryKeyTableNames.Nodup) : st'.noPrimaryKeyTableNames.Nodup := by
  unfold processQuery at h
  split_ifs at h with hct hci hcu ham
  · obtain ⟨tn, _, hset, _⟩ := checkCreateTableQuery_eq_some h
    rw [hset]
    split_ifs
    · exact insertName_nodup hn
    · exact hn
  · obtain ⟨n, _, hset, _⟩ := checkCreateIndexQuery_eq_some h
    rw [hset]; exact hn
  · obtain ⟨n, _, hset, _⟩ := checkCreateIndexQuery_eq_some h
    rw [hset]; exact hn
  · obtain ⟨tn, idf, t6, _, _, _, hcase⟩ := checkAlterTableAddConstraintQuery_eq_some h
    rcases hcase with ⟨_, _, _, rfl⟩ | ⟨_, _, _, rfl⟩ | ⟨_, rfl⟩
    · exact hn.erase tn
    · exact hn
    · exact hn
  · cases h
    exact hn

/-- A pending table name survives any statement that is not a recognized
`ALTER TABLE <that table> ADD CONSTRAINT ... PRIMARY KEY`. -/
theorem processQuery_mem_preserve {st st' : CheckState} {q : List Char} {tn : String}
    (h : processQuery st q = some st')
    (hmem : tn ∈ st.noPrimaryKeyTableNames)
    (hsafe : ¬(alterTableMatch q = true ∧ (pyTokens q)[2]? = some tn ∧
        (pyTokens q)[6]? = some "PRIMARY" ∧ (pyTokens q)[7]? = some "KEY")) :
    tn ∈ st'.noPrimaryKeyTableNames := by
  unfold processQuery at h
  split_ifs at h with hct hci hcu ham
  · obtain ⟨tn', _, hset, _⟩ := checkCreateTableQuery_eq_some h
    rw [hset]
    split_ifs
    · exact insertName_mem_of_mem hmem
    · exact hmem
  · obtain ⟨n, _, hset, _⟩ := checkCreateIndexQuery_eq_some h
    rw [hset]; exact hmem
  · obtain ⟨n, _, hset, _⟩ := checkCreateIndexQuery_eq_some h
    rw [hset]; exact hmem
  · obtain ⟨tn', idf, t6, htok2, _, htok6, hcase⟩ :=
      checkAlterTableAddConstraintQuery_eq_some h
    rcases hcase with ⟨h6, h7, _, rfl⟩ | ⟨_, _, _, rfl⟩ | ⟨_, rfl⟩
    · have hne : tn ≠ tn' := by
        intro he
        exact hsafe ⟨ham, he ▸ htok2, h6 ▸ htok6, h7⟩
      exact (List.mem_erase_of_ne hne).2 hmem
    · exact hmem
    · exact hmem
  · cases h
    exact hmem

/-- A recognized CREATE TABLE statement without the literal `PRIMARY KEY`
puts its third token into the pending set. -/
theorem processQuery_insert {st st' : CheckState} {q : List Char} {tn : String}
    (hct : ("CREATE TABLE".data).isPrefixOf q = true)
    (htok : (pyTokens q)[2]? = some tn)
    (hpk : containsSub q ("PRIMARY KEY".data) = false)
    (h : processQuery st q = some st') : tn ∈ st'.noPrimaryKeyTableNames := by
  unfold processQuery at h
  rw [if_pos hct] at h
  obtain ⟨tn', htok', hset, _⟩ := checkCreateTableQuery_eq_some h
  rw [htok] at htok'
  cases htok'
  rw [hset, if_pos hpk]
  exact insertName_mem_self tn st.noPrimaryKeyTableNames

/-- Invariant preservation through the classification loop; the step
hypothesis is only required for the statements actually in the list. -/
theorem foldlM_processQuery_invariant (P : CheckState → Prop) :
    ∀ (l : List (List Char)) (st st' : CheckState),
      (∀ s q s', q ∈ l → processQuery s q = some s' → P s → P s') →
      List.foldlM processQuery st l = some st' → P st → P st' := by
  intro l
  induction l with
  | nil =>
    intro st st' _ h hP
    rw [List.foldlM_nil] at h
    cases h
    exact hP
  | cons q rest ih =>
    intro st st' hstep h hP
    rw [List.foldlM_cons] at h
    cases h1 : processQuery st q with
    | none => rw [h1] at h; simp at h
    | some s1 =>
      rw [h1] at h
      exact ih s1 st' (fun s q' s' hm => hstep s q' s' (List.mem_cons_of_mem _ hm)) h
        (hstep st q s1 (List.mem_cons_self _ _) h1 hP)

/-- Splitting the classification loop at an append. -/
theorem foldlM_processQuery_append :
    ∀ (l₁ l₂ : List (List Char)) (st st' : CheckState),
      List.foldlM processQuery st (l₁ ++ l₂) = some st' →
      ∃ s1, List.foldlM processQuery st l₁ = some s1 ∧
        List.foldlM processQuery s1 l₂ = some st' := by
  intro l₁
  induction l₁ with
  | nil =>
    intro l₂ st st' h
    exact ⟨st, by rw [List.foldlM_nil]; rfl, by simpa using h⟩
  | cons q rest ih =>
    intro l₂ st st' h
    rw [List.cons_append, List.foldlM_cons] at h
    cases h1 : processQuery st q with
    | none => rw [h1] at h; simp at h
    | some s1 =>
      rw [h1] at h
      obtain ⟨s2, ha, hb⟩ := ih l₂ s1 st' h
      refine ⟨s2, ?_, hb⟩
      rw [List.foldlM_cons, h1]
      exact ha


/-- Words produced by the tokenizer contain no whitespace characters. -/
theorem pyWordsAux_no_space :
    ∀ (l acc : List Char), (∀ c ∈ acc, pyIsSpace c = false) →
      ∀ w ∈ pyWordsAux acc l, ∀ c ∈ w, pyIsSpace c = false := by
  intro l
  induction l with
  | nil =>
    intro acc hacc w hw
    unfold pyWordsAux at hw
    split_ifs at hw with he
    · simp at hw
    · simp only [List.mem_singleton] at hw
      subst hw
      intro c hc
      exact hacc c (List.mem_reverse.1 hc)
  | cons d rest ih =>
    intro acc hacc w hw
    unfold pyWordsAux at hw
    split_ifs at hw with hd he
    · exact ih [] (by simp) w hw
    · rcases List.mem_cons.1 hw with rfl | hw
      · intro c hc
        exact hacc c (List.mem_reverse.1 hc)
      · exact ih [] (by simp) w hw
    · refine ih (d :: acc) ?_ w hw
      intro c hc
      rcases List.mem_cons.1 hc with rfl | hc
      · exact eq_false_of_ne_true hd
      · exact hacc c hc

/-- Any token read from a statement contains no whitespace character. -/
theorem pyTokens_no_space {q : List Char} {k : Nat} {n : String}
    (h : (pyTokens q)[k]? = some n) : ∀ c ∈ n.data, pyIsSpace c = false := by
  unfold pyTokens at h
  rw [List.getElem?_map] at h
  cases hw : (pyWords q)[k]? with
  | none => rw [hw] at h; exact Option.noConfusion h
  | some w =>
    rw [hw] at h
    simp only [Option.map_some', Option.some.injEq] at h
    subst h
    exact pyWordsAux_no_space q [] (by simp) w (List.getElem?_mem hw)

/-- On a whitespace-free text the case-mixing check reads the whole text
and the newline side conditions of the regex hold vacuously. -/
theorem checkMixUpperLowerCaseText_no_newline {t : List Char}
    (h : ∀ c ∈ t, pyIsSpace c = false) :
    checkMixUpperLowerCaseText t =
      (if t.any Char.isLower && t.any Char.isUpper then
        (if !(t.head? == some '"' && t.getLast? == some '"') then false else true)
      else true) := by
  have hnl : ∀ c ∈ t, ¬c = '\n' := by
    intro c hc
    have hsp := h c hc
    simp only [pyIsSpace, Bool.or_eq_false_iff, decide_eq_false_iff_not] at hsp
    exact hsp.1.1.1.2
  have hfl : t.takeWhile (fun c => c ≠ '\n') = t := by
    rw [List.takeWhile_eq_self_iff]
    intro c hc
    simp [hnl c hc]
  have hdl : t.dropLast.any (fun c => c = '\n') = false := by
    simp only [List.any_eq_false, decide_eq_false_iff_not]
    intro c hc
    simp [hnl c (List.dropLast_subset _ hc)]
  unfold checkMixUpperLowerCaseText
  rw [hfl, hdl]
  simp only [Bool.not_false, Bool.and_true]

/-- With a fresh initial state, the classification loop yields a
duplicate-free pending set and only per-statement (benign) messages. -/
theorem statementsFold_invariants {ddl : List Char} {st : CheckState}
    (h : statementsFold ddl = some st) :
    st.noPrimaryKeyTableNames.Nodup ∧ ∀ m ∈ st.messages, benignMsg m := by
  unfold statementsFold at h
  constructor
  · exact foldlM_processQuery_invariant (fun s => s.noPrimaryKeyTableNames.Nodup) _ _ _
      (fun s q s' _ hs hP => processQuery_nodup hs hP) h (by simp)
  · exact foldlM_processQuery_invariant (fun s => ∀ m ∈ s.messages, benignMsg m) _ _ _
      (fun s q s' _ hs hP => processQuery_benign hs hP) h (by simp)

/-- Each name in the final pending set yields exactly one
missing-primary-key diagnostic in the final static message list. -/
theorem checkDdlSyntax_count_one {ddl : List Char} {st : CheckState}
    (h : checkDdlSyntax ddl = some st) {tn : String}
    (hmem : tn ∈ st.noPrimaryKeyTableNames) :
    st.messages.count (missingPrimaryKeyMsg tn) = 1 := by
  unfold checkDdlSyntax at h
  cases hf : statementsFold ddl with
  | none => rw [hf] at h; simp at h
  | some stF =>
    rw [hf] at h
    simp only [Option.some.injEq] at h
    subst h
    obtain ⟨hnodup, hbenign⟩ := statementsFold_invariants hf
    rw [List.count_append]
    have h0 : stF.messages.count (missingPrimaryKeyMsg tn) = 0 := by
      rw [List.count_eq_zero]
      intro hin
      exact benign_ne_missingPrimaryKeyMsg (hbenign _ hin) tn rfl
    rw [h0, List.count_map_of_injective _ _ missingPrimaryKeyMsg_injective,
      List.count_eq_one_of_mem hnodup hmem]

/-! ## Claim theorems -/

/-- C1 (counterexample): for the document exactly as the claim writes it —
`CREATE TABLE t (id int); ALTER TABLE t ADD CONSTRAINT t_pk PRIMARY KEY (id);`
with the two statements separated by `"; "` — the split piece holding the
ALTER statement starts with a space, the recognition regex does not match,
the pending entry for `t` is never removed, and the final diagnostics do
contain the missing-primary-key entry for `t`, contradicting the claim. -/
theorem alterAddConstraint_inline_separator_counterexample :
    ¬(∀ st : CheckState,
        checkDdlSyntax
            "CREATE TABLE t (id int); ALTER TABLE t ADD CONSTRAINT t_pk PRIMARY KEY (id);".data =
          some st →
        missingPrimaryKeyMsg "t" ∉ st.messages) := by
  intro hclaim
  exact hclaim ⟨["t"], [missingPrimaryKeyMsg "t"]⟩ (by decide) (by simp)

/-- C1 (amended): for every statement classified AlterTableAddConstraint
whose seventh and eighth tokens are `PRIMARY` `KEY`, if the third token is
in the pending-primary-key set the entry is removed, and otherwise the
ordering diagnostic is emitted.  The claim's example behaves as described
once its statements are separated by a double line-break (which the splitter
deletes); with the original single-line `"; "` separator the ALTER statement
is unrecognized (see the counterexample). -/
theorem alterAddConstraint_primaryKey_pending_update :
    (∀ (q : List Char) (st st' : CheckState) (tn : String),
        alterTableMatch q = true →
        checkAlterTableAddConstraintQuery q st = some st' →
        (pyTokens q)[2]? = some tn →
        (pyTokens q)[6]? = some "PRIMARY" →
        (pyTokens q)[7]? = some "KEY" →
        (tn ∈ st.noPrimaryKeyTableNames →
            st'.noPrimaryKeyTableNames = st.noPrimaryKeyTableNames.erase tn) ∧
          (tn ∉ st.noPrimaryKeyTableNames →
            st'.noPrimaryKeyTableNames = st.noPrimaryKeyTableNames ∧
              orderingMsg tn ∈ st'.messages)) ∧
      processQuery ⟨[], []⟩ "CREATE TABLE t (id int)".data = some ⟨["t"], []⟩ ∧
      processQuery ⟨["t"], []⟩ "ALTER TABLE t ADD CONSTRAINT t_pk PRIMARY KEY (id)".data =
        some ⟨[], []⟩ ∧
      checkDdlSyntax
          "CREATE TABLE t (id int);\n\nALTER TABLE t ADD CONSTRAINT t_pk PRIMARY KEY (id);".data =
        some ⟨[], []⟩ := by
  refine ⟨?_, by decide, by decide, by decide⟩
  intro q st st' tn _ h htok2 htok6 htok7
  obtain ⟨tn', idf, t6, htok2', _, htok6', hcase⟩ :=
    checkAlterTableAddConstraintQuery_eq_some h
  rw [htok2] at htok2'
  cases htok2'
  rw [htok6] at htok6'
  cases htok6'
  rcases hcase with ⟨_, _, hmem, rfl⟩ | ⟨_, _, hmem, rfl⟩ | ⟨hne, rfl⟩
  · exact ⟨fun _ => rfl, fun hn => absurd hmem hn⟩
  · exact ⟨fun hy => absurd hy hmem, fun _ => ⟨rfl, by simp⟩⟩
  · exact absurd ⟨rfl, htok7⟩ hne

theorem alterAddConstraint_primaryKey_pending_update_witness :
    ("t" ∈ (["t"] : List String)) ∧
      (CheckState.mk [] []).noPrimaryKeyTableNames = (["t"] : List String).erase "t" :=
  ⟨by decide,
    (alterAddConstraint_primaryKey_pending_update.1
        "ALTER TABLE t ADD CONSTRAINT t_pk PRIMARY KEY (id)".data
        ⟨["t"], []⟩ ⟨[], []⟩ "t" (by decide) (by decide) (by decide) (by decide)
        (by decide)).1 (by decide)⟩

/-- C3: a statement classified CreateTable has its third token added to the
pending set exactly when the literal `PRIMARY KEY` does not occur in the
statement; in particular `CREATE TABLE t (id int, PRIMARY KEY (id))` leaves
the pending set untouched. -/
theorem createTable_pending_insertion_iff :
    (∀ (q : List Char) (st st' : CheckState) (tn : String),
        checkCreateTableQuery q st = some st' →
        (pyTokens q)[2]? = some tn →
        (containsSub q ("PRIMARY KEY".data) = false →
            st'.noPrimaryKeyTableNames = insertName tn st.noPrimaryKeyTableNames) ∧
          (containsSub q ("PRIMARY KEY".data) = true →
            st'.noPrimaryKeyTableNames = st.noPrimaryKeyTableNames)) ∧
      checkCreateTableQuery "CREATE TABLE t (id int, PRIMARY KEY (id))".data ⟨[], []⟩ =
        some ⟨[], []⟩ := by
  refine ⟨?_, by decide⟩
  intro q st st' tn h htok
  obtain ⟨tn', htok', hset, _⟩ := checkCreateTableQuery_eq_some h
  rw [htok] at htok'
  cases htok'
  constructor
  · intro hc
    rw [hset, if_pos hc]
  · intro hc
    rw [hset, if_neg (by simp [hc])]

theorem createTable_pending_insertion_iff_witness :
    (CheckState.mk ["u"] []).noPrimaryKeyTableNames = insertName "u" ([] : List String) :=
  (createTable_pending_insertion_iff.1 "CREATE TABLE u (id int)".data ⟨[], []⟩
      ⟨["u"], []⟩ "u" (by decide) (by decide)).1 (by decide)

/-- C4 (counterexample): the source splitter neither trims the split pieces
nor discards the trailing empty piece, so it differs from the splitter the
spec describes already on this two-statement document. -/
theorem splitter_spec_trimming_counterexample :
    splitStatements "CREATE TABLE a (x int); CREATE TABLE b (y int);".data ≠
      splitStatementsSpec "CREATE TABLE a (x int); CREATE TABLE b (y int);".data := by
  decide

/-- C4 (amended): the splitter deletes every double line-break, splits on
the terminator, and keeps the pieces verbatim — untrimmed, with a trailing
empty piece retained; pieces matching none of the four recognized shapes
(including that empty piece) are silently skipped with no diagnostic. -/
theorem splitter_pieces_untrimmed_and_skipped :
    (∀ ddl : List Char, splitStatements ddl = splitSemi (removeDoubleNewlines ddl)) ∧
      splitStatements "CREATE TABLE a (x int); CREATE TABLE b (y int);".data =
        ["CREATE TABLE a (x int)".data, " CREATE TABLE b (y int)".data, []] ∧
      (∀ (st : CheckState) (q : List Char),
          ("CREATE TABLE".data).isPrefixOf q = false →
          ("CREATE INDEX".data).isPrefixOf q = false →
          ("CREATE UNIQUE INDEX".data).isPrefixOf q = false →
          alterTableMatch q = false →
          processQuery st q = some st) :=
  ⟨fun _ => rfl, by decide,
    fun st q h1 h2 h3 h4 => processQuery_unrecognized h1 h2 h3 h4⟩

theorem splitter_pieces_untrimmed_and_skipped_witness :
    processQuery ⟨[], []⟩ " CREATE TABLE b (y int)".data = some ⟨[], []⟩ :=
  splitter_pieces_untrimmed_and_skipped.2.2 ⟨[], []⟩ " CREATE TABLE b (y int)".data
    (by decide) (by decide) (by decide) (by decide)

/-- C7 (counterexample): an execution-failure text containing uppercase
letters is appended after case normalization, not verbatim: the raw engine
message `Syntax Error` is recorded as `syntax error`. -/
theorem error_text_not_verbatim_counterexample :
    executeDdl [] (.failure "Syntax Error".data) = some [String.mk "syntax error".data] ∧
      String.mk "syntax error".data ≠ String.mk "Syntax Error".data :=
  ⟨by decide, by decide⟩

/-- C7 (amended): every failure text whose lowercasing does not match the
partition-error pattern has that lowercased text appended to the diagnostic
list unmodified — it is never dropped (and texts without uppercase ASCII
letters are appended verbatim). -/
theorem unrecognized_error_text_appended_lowercased :
    ∀ (msgs : List String) (raw : List Char),
      partitionErrorSearch (pyLower raw) = none →
      executeDdl msgs (.failure raw) = some (msgs ++ [String.mk (pyLower raw)]) := by
  intro msgs raw h
  simp [executeDdl, h]

theorem unrecognized_error_text_appended_lowercased_witness :
    executeDdl [] (.failure "boom".data) =
      some ([] ++ [String.mk (pyLower "boom".data)]) :=
  unrecognized_error_text_appended_lowercased [] "boom".data (by decide)

/-- C10: these statements are accepted by the classifier but read a token
position that does not exist, so the embedded static check returns `none`
(an uncaught `IndexError` in Python) instead of completing with a
diagnostic list. -/
theorem fixed_token_positions_out_of_range :
    checkDdlSyntax "CREATE TABLE".data = none ∧
      checkDdlSyntax "ALTER TABLE t ADD CONSTRAINT".data = none ∧
      checkDdlSyntax "ALTER TABLE t ADD CONSTRAINT c PRIMARY".data = none :=
  ⟨by decide, by decide, by decide⟩

/-- A table name of maximal legal unquoted length (63 characters), wrapped
in double quotes; the raw token has length 65. -/
def quotedName63 : String := "\"aaaaaaaaaaaaaaaaaaaaaaaaaaaaaaaaaaaaaaaaaaaaaaaaaaaaaaaaaaaaaaa\""

/-- Unquoted table name of length 63. -/
def plainName63 : String := "aaaaaaaaaaaaaaaaaaaaaaaaaaaaaaaaaaaaaaaaaaaaaaaaaaaaaaaaaaaaaaa"

/-- Unquoted table name of length 64. -/
def plainName64 : String := "aaaaaaaaaaaaaaaaaaaaaaaaaaaaaaaaaaaaaaaaaaaaaaaaaaaaaaaaaaaaaaaa"

/-- C5 (counterexample): the length check uses the raw token length, not the
unquoted length: for a quoted table name whose unquoted length is exactly 63
(so the claim says no diagnostic), the checker emits the length
diagnostic. -/
theorem quoted_table_name_length_counterexample :
    (quotedName63.data.filter (fun c => c ≠ '"')).length = 63 ∧
      checkCreateTableQuery ("CREATE TABLE " ++ quotedName63 ++ " (id int)").data ⟨[], []⟩ =
        some ⟨[quotedName63], [tableLengthMsg quotedName63]⟩ :=
  ⟨by decide, by decide⟩

/-- C5 (amended): the length-violation diagnostic for table and index names
is emitted exactly when the raw token length (quotes included) exceeds 63.
Both conjuncts pin the appended messages exactly, so a name of raw length at
most 63 gets no length diagnostic; for unquoted names this is the claimed
boundary, shown concretely for table and index names of lengths 64 and
63. -/
theorem name_length_rule_raw_token_length :
    (∀ (q : List Char) (st st' : CheckState) (tn : String),
        checkCreateTableQuery q st = some st' →
        (pyTokens q)[2]? = some tn →
        st'.messages =
          st.messages ++ (if tn.length > 63 then [tableLengthMsg tn] else [])) ∧
      (∀ (q : List Char) (isUnique : Bool) (st st' : CheckState) (n : String),
          checkCreateIndexQuery q isUnique st = some st' →
          (if isUnique then (pyTokens q)[3]? else (pyTokens q)[2]?) = some n →
          st'.messages =
            st.messages ++
              (if checkMixUpperLowerCaseText n.data = false then [indexCaseMsg n]
                else []) ++
              (if n.length > 63 then [indexLengthMsg n] else [])) ∧
      (checkCreateTableQuery ("CREATE TABLE " ++ plainName64 ++ " (id int)").data ⟨[], []⟩ =
        some ⟨[plainName64], [tableLengthMsg plainName64]⟩) ∧
      (checkCreateTableQuery ("CREATE TABLE " ++ plainName63 ++ " (id int)").data ⟨[], []⟩ =
        some ⟨[plainName63], []⟩) ∧
      (checkCreateIndexQuery ("CREATE INDEX " ++ plainName64 ++ " ON t (x)").data false
          ⟨[], []⟩ =
        some ⟨[], [indexLengthMsg plainName64]⟩) ∧
      (checkCreateIndexQuery ("CREATE INDEX " ++ plainName63 ++ " ON t (x)").data false
          ⟨[], []⟩ =
        some ⟨[], []⟩) := by
  refine ⟨?_, ?_, by decide, by decide, by decide, by decide⟩
  · intro q st st' tn h htok
    obtain ⟨tn', htok', _, hmsg⟩ := checkCreateTableQuery_eq_some h
    rw [htok] at htok'
    cases htok'
    exact hmsg
  · intro q isUnique st st' n h htok
    obtain ⟨n', htok', _, hmsg⟩ := checkCreateIndexQuery_eq_some h
    rw [htok] at htok'
    cases htok'
    exact hmsg

theorem name_length_rule_raw_token_length_witness :
    ((CheckState.mk ["t"] []).messages =
        (CheckState.mk [] []).messages ++
          (if ("t" : String).length > 63 then [tableLengthMsg "t"] else [])) ∧
      ((CheckState.mk [] []).messages =
        (CheckState.mk [] []).messages ++
          (if checkMixUpperLowerCaseText ("idx" : String).data = false
            then [indexCaseMsg "idx"] else []) ++
          (if ("idx" : String).length > 63 then [indexLengthMsg "idx"] else [])) :=
  ⟨name_length_rule_raw_token_length.1 "CREATE TABLE t (id int)".data ⟨[], []⟩
      ⟨["t"], []⟩ "t" (by decide) (by decide),
    name_length_rule_raw_token_length.2.1 "CREATE INDEX idx ON t (x)".data false ⟨[], []⟩
      ⟨[], []⟩ "idx" (by decide) (by decide)⟩

theorem head?_data_append {s t : String} {c : Char} (h : s.data.head? = some c) :
    (s ++ t).data.head? = some c := by
  rw [String.data_append]
  cases e : s.data with
  | nil => rw [e] at h; exact Option.noConfusion h
  | cons x xs =>
    rw [e] at h
    simp only [List.head?_cons, Option.some.injEq] at h
    subst h
    simp

theorem indexCaseMsg_ne_indexLengthMsg (n : String) : indexCaseMsg n ≠ indexLengthMsg n := by
  intro h
  have h1 : (indexCaseMsg n).data.head? = some '大' :=
    head?_data_append (head?_data_append (by decide))
  have h2 : (indexLengthMsg n).data.head? = some 'イ' :=
    head?_data_append (head?_data_append (by decide))
  rw [h] at h1
  have h3 := h1.symm.trans h2
  exact absurd h3 (by decide)

/-- C6: a recognized CREATE (UNIQUE) INDEX statement gets a case-mixing
diagnostic when its index-name token contains both an ASCII uppercase and an
ASCII lowercase letter and is not wrapped in double quotes; a name wrapped
in double quotes gets no case-mixing diagnostic. -/
theorem index_name_case_mixing_rule :
    ∀ (q : List Char) (isUnique : Bool) (st st' : CheckState) (n : String),
      checkCreateIndexQuery q isUnique st = some st' →
      (if isUnique then (pyTokens q)[3]? else (pyTokens q)[2]?) = some n →
      ∃ newMsgs, st'.messages = st.messages ++ newMsgs ∧
        (n.data.any Char.isLower = true → n.data.any Char.isUpper = true →
          ¬(n.data.head? = some '"' ∧ n.data.getLast? = some '"') →
          indexCaseMsg n ∈ newMsgs) ∧
        (n.data.head? = some '"' → n.data.getLast? = some '"' →
          indexCaseMsg n ∉ newMsgs) := by
  intro q isUnique st st' n h htok
  obtain ⟨n', htok', _, hmsg⟩ := checkCreateIndexQuery_eq_some h
  rw [htok] at htok'
  cases htok'
  have hns : ∀ c ∈ n.data, pyIsSpace c = false := by
    cases isUnique with
    | false => exact pyTokens_no_space (by simpa using htok)
    | true => exact pyTokens_no_space (by simpa using htok)
  refine ⟨(if checkMixUpperLowerCaseText n.data = false then [indexCaseMsg n] else []) ++
      (if n.length > 63 then [indexLengthMsg n] else []),
    by rw [hmsg, List.append_assoc], ?_, ?_⟩
  · intro hlow hup hnq
    have hbool : (n.data.head? == some '"' && n.data.getLast? == some '"') = false := by
      by_cases h1 : n.data.head? = some '"'
      · by_cases h2 : n.data.getLast? = some '"'
        · exact absurd ⟨h1, h2⟩ hnq
        · simp [h2]
      · simp [h1]
    have hmix : checkMixUpperLowerCaseText n.data = false := by
      rw [checkMixUpperLowerCaseText_no_newline hns, if_pos (by rw [hlow, hup]; rfl),
        if_pos (by rw [hbool]; rfl)]
    simp [hmix]
  · intro h1 h2
    have hmix : checkMixUpperLowerCaseText n.data = true := by
      rw [checkMixUpperLowerCaseText_no_newline hns]
      have hbool : (n.data.head? == some '"' && n.data.getLast? == some '"') = true := by
        simp [h1, h2]
      split_ifs with hc hq
      · rw [hbool] at hq
        simp at hq
      · rfl
      · rfl
    intro hin
    rcases List.mem_append.1 hin with hx | hx
    · rw [if_neg (by simp [hmix])] at hx
      simp at hx
    · exact indexCaseMsg_ne_indexLengthMsg n (mem_ite_singleton hx)

theorem index_name_case_mixing_rule_witness :
    ∃ newMsgs,
      (CheckState.mk [] [indexCaseMsg "MyIdx"]).messages =
          (CheckState.mk [] []).messages ++ newMsgs ∧
        (("MyIdx" : String).data.any Char.isLower = true →
          ("MyIdx" : String).data.any Char.isUpper = true →
          ¬(("MyIdx" : String).data.head? = some '"' ∧
            ("MyIdx" : String).data.getLast? = some '"') →
          indexCaseMsg "MyIdx" ∈ newMsgs) ∧
        (("MyIdx" : String).data.head? = some '"' →
          ("MyIdx" : String).data.getLast? = some '"' →
          indexCaseMsg "MyIdx" ∉ newMsgs) :=
  index_name_case_mixing_rule "CREATE INDEX MyIdx ON t (x)".data false ⟨[], []⟩
    ⟨[], [indexCaseMsg "MyIdx"]⟩ "MyIdx" (by decide) (by decide)

/-- C8: the returned diagnostic list is the per-statement diagnostics of the
classification loop in document order, then the missing-primary-key
diagnostics (one per remaining pending name, in the set's order), then the
at most one diagnostic of the execution phase; an empty list means every
check passed. -/
theorem diagnostic_aggregation_order :
    ∀ (ddl : List Char) (o : ExecOutcome) (stF : CheckState) (res : List String),
      statementsFold ddl = some stF →
      checkDdl ddl o = some res →
      ∃ execMsgs, execMsgs.length ≤ 1 ∧
        res = stF.messages ++
            stF.noPrimaryKeyTableNames.map missingPrimaryKeyMsg ++ execMsgs := by
  intro ddl o stF res hf h
  unfold checkDdl checkDdlSyntax at h
  rw [hf] at h
  cases o with
  | success =>
    unfold executeDdl at h
    simp only [Option.some.injEq] at h
    exact ⟨[], by simp, by rw [← h, List.append_nil]⟩
  | failure raw =>
    unfold executeDdl at h
    simp only at h
    cases hs : partitionErrorSearch (pyLower raw) with
    | none =>
      rw [hs] at h
      simp only [Option.some.injEq] at h
      exact ⟨[String.mk (pyLower raw)], by simp, h.symm⟩
    | some g =>
      rw [hs] at h
      unfold parsePartitionErrorText at h
      dsimp only at h
      cases h5 : (pyTokens g)[5]? with
      | none => rw [h5] at h; exact Option.noConfusion h
      | some tn =>
        rw [h5] at h
        cases h8 : (pyTokens g)[8]? with
        | none => rw [h8] at h; exact Option.noConfusion h
        | some col =>
          rw [h8] at h
          simp only [Option.some.injEq] at h
          exact ⟨[partitionMsg tn col], by simp, h.symm⟩

theorem diagnostic_aggregation_order_witness :
    ∃ execMsgs : List String, execMsgs.length ≤ 1 ∧
      [missingPrimaryKeyMsg "t"] =
        (CheckState.mk ["t"] []).messages ++
          (CheckState.mk ["t"] []).noPrimaryKeyTableNames.map missingPrimaryKeyMsg ++
          execMsgs :=
  diagnostic_aggregation_order "CREATE TABLE t (id int);".data .success ⟨["t"], []⟩
    [missingPrimaryKeyMsg "t"] (by decide) (by decide)

theorem isPrefixOfCharConsFalse {a b : Char} (h : ¬a = b) (as bs : List Char) :
    (a :: as).isPrefixOf (b :: bs) = false := by
  have hb : (a == b) = false := by
    cases e : a == b
    · rfl
    · exact absurd (eq_of_beq e) h
  simp [List.isPrefixOf, hb]

/-- After the literal `ALTER TABLE `, a name containing a character outside
`[a-z0-9_]` (and no whitespace, being a token) can never be followed by a
successful match of the literal ` ADD CONSTRAINT` at the end of the
class-character run. -/
theorem alter_run_no_constraint_suffix :
    ∀ (nm : List Char), (∃ c ∈ nm, alterNameChar c = false) →
      (∀ c ∈ nm, pyIsSpace c = false) →
      ∀ r : List Char,
        (" ADD CONSTRAINT".data).isPrefixOf
            (List.dropWhile alterNameChar (nm ++ r)) = false := by
  intro nm
  induction nm with
  | nil =>
    intro hbad _ _
    rcases hbad with ⟨c, hc, _⟩
    exact absurd hc (List.not_mem_nil c)
  | cons d tl ih =>
    intro hbad hns r
    by_cases hd : alterNameChar d = true
    · rw [List.cons_append, List.dropWhile_cons, if_pos hd]
      refine ih ?_ (fun c hc => hns c (List.mem_cons_of_mem _ hc)) r
      rcases hbad with ⟨c, hc, hcf⟩
      rcases List.mem_cons.1 hc with rfl | hc
      · rw [hd] at hcf
        exact absurd hcf (by simp)
      · exact ⟨c, hc, hcf⟩
    · rw [List.cons_append, List.dropWhile_cons,
        if_neg (by simpa using eq_false_of_ne_true hd)]
      have hdsp : ¬(' ' : Char) = d := by
        intro he
        have hsp := hns d (List.mem_cons_self _ _)
        rw [← he] at hsp
        simp [pyIsSpace] at hsp
      have hlit : (" ADD CONSTRAINT".data) = ' ' :: "ADD CONSTRAINT".data := rfl
      rw [hlit]
      exact isPrefixOfCharConsFalse hdsp _ _

/-- The ALTER TABLE recognition regex rejects any statement whose table name
holds a character outside `[a-z0-9_]`. -/
theorem alterTableMatch_false_of_bad_name (name rest : List Char)
    (hbad : ∃ c ∈ name, alterNameChar c = false)
    (hns : ∀ c ∈ name, pyIsSpace c = false) :
    alterTableMatch
        ("ALTER TABLE ".data ++ (name ++ (" ADD CONSTRAINT".data ++ rest))) = false := by
  unfold alterTableMatch
  have hdrop : ("ALTER TABLE ".data ++ (name ++ (" ADD CONSTRAINT".data ++ rest))).drop 12 =
      name ++ (" ADD CONSTRAINT".data ++ rest) := by
    have h12 : ("ALTER TABLE ".data).length = 12 := by decide
    rw [← h12, List.drop_left]
  simp only [hdrop]
  rw [alter_run_no_constraint_suffix name hbad hns (" ADD CONSTRAINT".data ++ rest)]
  simp

/-- C9: a statement of the shape `ALTER TABLE <name> ADD CONSTRAINT ...`
whose table name contains any character outside lowercase letters, digits
and underscore is classified Unrecognized and skipped with the state
unchanged; consequently its PRIMARY KEY constraint removes nothing and the
missing-primary-key diagnostic for that table is still emitted, as the
concrete `Tbl` document shows. -/
theorem alter_uppercase_table_unrecognized :
    (∀ (name rest : List Char) (st : CheckState),
        (∀ c ∈ name, pyIsSpace c = false) →
        (∃ c ∈ name, alterNameChar c = false) →
        processQuery st
            ("ALTER TABLE ".data ++ (name ++ (" ADD CONSTRAINT".data ++ rest))) =
          some st) ∧
      checkDdlSyntax
          "CREATE TABLE Tbl (id int);\n\nALTER TABLE Tbl ADD CONSTRAINT c_pk PRIMARY KEY (id);".data =
        some ⟨["Tbl"], [missingPrimaryKeyMsg "Tbl"]⟩ := by
  refine ⟨?_, by decide⟩
  intro name rest st hns hbad
  have hq : "ALTER TABLE ".data ++ (name ++ (" ADD CONSTRAINT".data ++ rest)) =
      'A' :: ("LTER TABLE ".data ++ (name ++ (" ADD CONSTRAINT".data ++ rest))) := rfl
  apply processQuery_unrecognized
  · rw [hq]
    exact isPrefixOfCharConsFalse (by decide) _ _
  · rw [hq]
    exact isPrefixOfCharConsFalse (by decide) _ _
  · rw [hq]
    exact isPrefixOfCharConsFalse (by decide) _ _
  · exact alterTableMatch_false_of_bad_name name rest hbad hns

theorem alter_uppercase_table_unrecognized_witness :
    processQuery ⟨["x"], []⟩
        ("ALTER TABLE ".data ++
          ("Tbl".data ++ (" ADD CONSTRAINT".data ++ " c PRIMARY KEY (id)".data))) =
      some ⟨["x"], []⟩ :=
  alter_uppercase_table_unrecognized.1 "Tbl".data " c PRIMARY KEY (id)".data ⟨["x"], []⟩
    (by decide) (by decide)

/-- C2: (a) every name still in the pending set at the end of the static
pass is named by exactly one missing-primary-key diagnostic in the final
static message list; (b) a recognized CREATE TABLE statement without the
literal `PRIMARY KEY`, with no later recognized
`ALTER TABLE <same table> ADD CONSTRAINT ... PRIMARY KEY` statement, gets
exactly one missing-primary-key diagnostic for its table. -/
theorem missing_primary_key_diagnostics_complete :
    ∀ (ddl : List Char) (st : CheckState),
      checkDdlSyntax ddl = some st →
      (∀ tn ∈ st.noPrimaryKeyTableNames,
          st.messages.count (missingPrimaryKeyMsg tn) = 1) ∧
        (∀ (pre : List (List Char)) (q : List Char) (post : List (List Char)) (tn : String),
          splitStatements ddl = pre ++ q :: post →
          ("CREATE TABLE".data).isPrefixOf q = true →
          (pyTokens q)[2]? = some tn →
          containsSub q ("PRIMARY KEY".data) = false →
          (∀ q' ∈ post,
              ¬(alterTableMatch q' = true ∧ (pyTokens q')[2]? = some tn ∧
                (pyTokens q')[6]? = some "PRIMARY" ∧ (pyTokens q')[7]? = some "KEY")) →
          st.messages.count (missingPrimaryKeyMsg tn) = 1) := by
  intro ddl st h
  refine ⟨fun tn hmem => checkDdlSyntax_count_one h hmem, ?_⟩
  intro pre q post tn hsplit hct htok hpk hsafe
  have hmem : tn ∈ st.noPrimaryKeyTableNames := by
    unfold checkDdlSyntax at h
    cases hf : statementsFold ddl with
    | none => rw [hf] at h; exact Option.noConfusion h
    | some stF =>
      rw [hf] at h
      simp only [Option.some.injEq] at h
      subst h
      unfold statementsFold at hf
      rw [hsplit] at hf
      obtain ⟨s1, _, hrest⟩ := foldlM_processQuery_append pre (q :: post) _ _ hf
      rw [List.foldlM_cons] at hrest
      cases h1 : processQuery s1 q with
      | none => rw [h1] at hrest; simp at hrest
      | some s2 =>
        rw [h1] at hrest
        have hs2 : tn ∈ s2.noPrimaryKeyTableNames := processQuery_insert hct htok hpk h1
        exact foldlM_processQuery_invariant (fun s => tn ∈ s.noPrimaryKeyTableNames)
          post s2 stF
          (fun s q' s' hq' hstep hP => processQuery_mem_preserve hstep hP (hsafe q' hq'))
          hrest hs2
  exact checkDdlSyntax_count_one h hmem

theorem missing_primary_key_diagnostics_complete_witness :
    (CheckState.mk ["t"] [missingPrimaryKeyMsg "t"]).messages.count
        (missingPrimaryKeyMsg "t") = 1 :=
  (missing_primary_key_diagnostics_complete "CREATE TABLE t (id int);".data
      ⟨["t"], [missingPrimaryKeyMsg "t"]⟩ (by decide)).2 []
    "CREATE TABLE t (id int)".data [[]] "t" (by decide) (by decide) (by decide)
    (by decide) (by decide)
